import Mathlib

/-!
Shallow embedding of the yubikey-agent SSH agent core (FiloSottile/yubikey-agent).

The repository ships two revisions of the agent core: the single-slot one in
src/main.go and a multi-slot revision embedded after the module stanza in
src/go.mod (slot catalog, serial selector, touch-notification timer).  The
definitions below embed the multi-slot revision for the slot/enumeration/
signing machinery (each definition's doc comment cites its source lines), and
src/main.go for the agent operation table (Close / RemoveAll), whose claims
cite those lines.  External collaborators (the piv-go hardware library and the
x/crypto/ssh library) are modelled as oracles: structures whose fields record
the answer each hardware or library call would return.
-/

namespace YubikeyAgent

/-- Byte strings are modelled as lists of naturals. -/
abbrev Bytes := List Nat

/-- Decode the leading length-prefixed algorithm-name field of an SSH wire
public key blob, as golang.org/x/crypto/ssh does: 4-byte big-endian length,
then that many bytes of name.  An ssh.PublicKey's Type() is always the name
its Marshal() output starts with. -/
def decodeType : Bytes → String
  | b0 :: b1 :: b2 :: b3 :: rest =>
      String.mk (((rest.take (((b0 * 256 + b1) * 256 + b2) * 256 + b3)).map Char.ofNat))
  | _ => ""

/-- An ssh.PublicKey, identified by its wire encoding: Marshal() is the blob
itself and Type() is the algorithm name the blob starts with. -/
structure SSHPublicKey where
  blob : Bytes
deriving DecidableEq, Repr

/-- ssh.PublicKey.Type(). -/
def SSHPublicKey.type (k : SSHPublicKey) : String := decodeType k.blob

/-- Helper to build the wire form of a length-prefixed name shorter than 256
bytes, used to construct concrete public key blobs. -/
def typeField (s : String) : Bytes :=
  [0, 0, 0, s.length] ++ s.toList.map Char.toNat

/-- ssh.KeyAlgoRSA. -/
def KeyAlgoRSA : String := "ssh-rsa"

/-- ssh.SigAlgoRSASHA2256. -/
def SigAlgoRSASHA2256 : String := "rsa-sha2-256"

/-- ssh.SigAlgoRSASHA2512. -/
def SigAlgoRSASHA2512 : String := "rsa-sha2-512"

/-- agent.SignatureFlagRsaSha256 = 2 (x/crypto/ssh/agent). -/
def SignatureFlagRsaSha256 : Nat := 2

/-- agent.SignatureFlagRsaSha512 = 4 (x/crypto/ssh/agent). -/
def SignatureFlagRsaSha512 : Nat := 4

/-- piv.Slot is identified by its key reference; piv.SlotAuthentication.Key = 0x9a. -/
abbrev Slot := Nat

/-- piv.SlotAuthentication (key 0x9a). -/
def SlotAuthentication : Slot := 0x9a

/-- piv.SlotSignature (key 0x9c). -/
def SlotSignature : Slot := 0x9c

/-- piv.SlotKeyManagement (key 0x9d). -/
def SlotKeyManagement : Slot := 0x9d

/-- piv.SlotCardAuthentication (key 0x9e). -/
def SlotCardAuthentication : Slot := 0x9e

/-- piv.PINPolicy (an int; the slot catalog in src/go.mod uses -1 for unset). -/
abbrev PINPolicy := Int

/-- The dynamic type of a certificate's embedded public key, as inspected by
the type switch in getPublicKey (src/go.mod lines 319-324). -/
inductive CertKeyType
  | ecdsa
  | rsa
  | other (typeName : String)
deriving DecidableEq, Repr

/-- An x509 certificate as far as the agent looks at it: the dynamic type of
its public key, and the oracle answer of ssh.NewPublicKey on that key. -/
structure Cert where
  keyType : CertKeyType
  newPublicKey : Except String SSHPublicKey
deriving Repr

/-- An ssh.Signer: its public key and the oracle for
SignWithAlgorithm(rand, data, algorithm). -/
structure Signer where
  pub : SSHPublicKey
  signWithAlgorithm : Bytes → String → Except String Bytes

/-- A piv.YubiKey handle, modelled as an oracle recording the answer of each
hardware call the agent makes on it. -/
structure YubiKey where
  /-- whether AttestationCertificate() succeeds (the health probe). -/
  attestationOk : Bool
  /-- Serial(). -/
  serialResult : Except String Nat
  /-- Certificate(slot). -/
  certificate : Slot → Except String Cert
  /-- PrivateKey(slot, pub, keyAuth) with the PIN prompt callback and the
  slot's PIN policy, yielding a private-key handle. -/
  privateKey : Slot → PINPolicy → Except String Nat
  /-- ssh.NewSignerFromKey applied to a private-key handle. -/
  signerFromKey : Nat → Except String Signer
  /-- Retries(). -/
  retriesResult : Except String Nat
  /-- Close(): none on success, some message on failure. -/
  closeResult : Option String

/-- The distinct error values the agent returns across its operations.  Each
constructor stands for one distinct error construction in the source:
couldNotReach wraps an ensureYK failure ("could not reach YubiKey: %w"),
noValidSigner carries the per-slot causes ("failed to prepare a valid signer:
%s"), noMatchingKey is "no private keys match the requested public key",
hardware is a pass-through error from a hardware or library call,
operationUnsupported is ErrOperationUnsupported, and extensionUnsupported is
agent.ErrExtensionUnsupported. -/
inductive AgentError
  | couldNotReach (cause : String)
  | noValidSigner (causes : List (Slot × String))
  | noMatchingKey
  | hardware (e : String)
  | operationUnsupported
  | extensionUnsupported
deriving DecidableEq, Repr

/-- healthy (src/go.mod lines 207-212): probes the session with
AttestationCertificate, chosen because Serial locks the session on older
firmwares and Retries fails when the session is unlocked. -/
def healthy (yk : YubiKey) : Bool := yk.attestationOk

/-- The tail of getPublicKey: ssh.NewPublicKey on the certificate's key
(src/go.mod lines 325-329). -/
def processKey (cert : Cert) : Except String SSHPublicKey :=
  match cert.newPublicKey with
  | .error e => .error ("failed to process public key: " ++ e)
  | .ok pk => .ok pk

/-- getPublicKey (src/go.mod lines 314-330): fetch the slot's certificate,
accept only ecdsa or rsa keys, and convert to an ssh.PublicKey. -/
def getPublicKey (yk : YubiKey) (slot : Slot) : Except String SSHPublicKey :=
  match yk.certificate slot with
  | .error e => .error ("could not get public key: " ++ e)
  | .ok cert =>
    match cert.keyType with
    | .ecdsa => processKey cert
    | .rsa => processKey cert
    | .other _ => .error "unexpected public key type"

/-- One iteration of the signers() loop body (src/go.mod lines 346-368):
public key retrieval, private key preparation, signer construction, each
failure wrapped with its own context. -/
def buildSigner (yk : YubiKey) (slot : Slot) (policy : PINPolicy) : Except String Signer :=
  match getPublicKey yk slot with
  | .error e => .error ("failed to retrieve public key: " ++ e)
  | .ok _pk =>
    match yk.privateKey slot policy with
    | .error e => .error ("failed to prepare private key: " ++ e)
    | .ok priv =>
      match yk.signerFromKey priv with
      | .error e => .error ("failed to prepare signer: " ++ e)
      | .ok s => .ok s

/-- The signers() loop (src/go.mod lines 342-368): walk the slot catalog,
collecting built signers and per-slot errors. -/
def signersAux (yk : YubiKey) : List (Slot × PINPolicy) → List Signer × List (Slot × String)
  | [] => ([], [])
  | (slot, policy) :: rest =>
    let r := signersAux yk rest
    match buildSigner yk slot policy with
    | .error e => (r.1, (slot, e) :: r.2)
    | .ok s => (s :: r.1, r.2)

/-- signers (src/go.mod lines 342-375): if no slot produced a signer, fail
with the aggregated per-slot causes; otherwise return the built signers. -/
def signers (yk : YubiKey) (cfg : List (Slot × PINPolicy)) :
    Except (List (Slot × String)) (List Signer) :=
  match signersAux yk cfg with
  | ([], errs) => .error errs
  | (s :: ss, _) => .ok (s :: ss)

/-- The signers a configuration successfully builds, in catalog order. -/
def okSigners (yk : YubiKey) (cfg : List (Slot × PINPolicy)) : List Signer :=
  cfg.filterMap fun p => (buildSigner yk p.1 p.2).toOption

/-- The per-slot errors a configuration records, in catalog order. -/
def slotErrors (yk : YubiKey) (cfg : List (Slot × PINPolicy)) : List (Slot × String) :=
  cfg.filterMap fun p =>
    match buildSigner yk p.1 p.2 with
    | .error e => some (p.1, e)
    | .ok _ => none

/-- One entry of the agent.Key list returned by List (src/go.mod lines 303-307). -/
structure AgentKey where
  format : String
  blob : Bytes
  comment : String
deriving DecidableEq, Repr

/-- The comment string "YubiKey #serial PIV Slot slot" (src/go.mod line 306);
piv.Slot prints as the lowercase hex of its key reference. -/
def slotComment (serial : Nat) (slot : Slot) : String :=
  "YubiKey #" ++ toString serial ++ " PIV Slot " ++ String.mk (Nat.toDigits 16 slot)

/-- The List loop (src/go.mod lines 298-309): walk the slot catalog, keeping a
record for each slot whose public key retrieval succeeds and silently skipping
the rest. -/
def listLoop (yk : YubiKey) (serial : Nat) : List (Slot × PINPolicy) → List AgentKey
  | [] => []
  | (slot, _) :: rest =>
    match getPublicKey yk slot with
    | .ok pk => ⟨pk.type, pk.blob, slotComment serial slot⟩ :: listLoop yk serial rest
    | .error _ => listLoop yk serial rest

/-- The record List would emit for one slot, if any. -/
def keyRecord (yk : YubiKey) (serial : Nat) (slot : Slot) : Option AgentKey :=
  match getPublicKey yk slot with
  | .ok pk => some ⟨pk.type, pk.blob, slotComment serial slot⟩
  | .error _ => none

/-- One attached smart card as the discovery loop sees it: its reader name and
the answer of piv.Open on it. -/
structure Card where
  name : String
  openResult : Except String YubiKey

/-- The environment of a discovery attempt: the answer of piv.Cards(). -/
structure World where
  cardsResult : Except String (List Card)

/-- The card scan inside connectToYK (src/go.mod lines 241-266): skip cards
that fail to open or to answer a serial query; with a configured serial
(selector nonzero) accept only the card whose serial matches; otherwise take
the first card that opens and answers, caching its serial. -/
def connectLoop (sel : Nat) : List Card → Option (YubiKey × Nat)
  | [] => none
  | c :: rest =>
    match c.openResult with
    | .error _ => connectLoop sel rest
    | .ok yk =>
      match yk.serialResult with
      | .error _ => connectLoop sel rest
      | .ok serial =>
        if sel ≠ 0 then
          if serial = sel then some (yk, sel) else connectLoop sel rest
        else some (yk, serial)

/-- connectToYK (src/go.mod lines 231-269): enumerate cards, fail if none are
attached, scan for a usable card, and fail if none qualifies.  The returned
pair is the freshly opened handle and the agent's (possibly updated) cached
serial. -/
def connectToYK (w : World) (sel : Nat) : Except String (YubiKey × Nat) :=
  match w.cardsResult with
  | .error e => .error e
  | .ok cards =>
    if cards.isEmpty then .error "no YubiKey detected"
    else
      match connectLoop sel cards with
      | some p => .ok p
      | none => .error "could not find a yubikey card to use"

/-- The first card that opens successfully and answers a serial query,
together with its serial. -/
def firstAnswering (cards : List Card) : Option (YubiKey × Nat) :=
  cards.findSome? fun c =>
    match c.openResult with
    | .error _ => none
    | .ok yk =>
      match yk.serialResult with
      | .error _ => none
      | .ok serial => some (yk, serial)

/-- The agent's session state: the current YubiKey handle, if any, and the
cached (or configured) serial number. -/
structure AgentState where
  yk : Option YubiKey
  serial : Nat

/-- The outcome of ensureYK: the operation result, the agent state afterward,
and whether the previously held (stale) handle was closed. -/
structure EnsureOutcome where
  result : Except String YubiKey
  state : AgentState
  closedStale : Bool

/-- ensureYK (src/go.mod lines 214-229): if no session is held or the held one
fails the health probe, close the stale handle (when present) and run
discovery; install the discovered session on success, and leave the state
untouched on failure. -/
def ensureYK (w : World) (a : AgentState) : EnsureOutcome :=
  match a.yk with
  | none =>
    (match connectToYK w a.serial with
     | .error e => ⟨.error e, a, false⟩
     | .ok (yk, s) => ⟨.ok yk, ⟨some yk, s⟩, false⟩)
  | some yk =>
    if healthy yk then ⟨.ok yk, a, false⟩
    else
      match connectToYK w a.serial with
      | .error e => ⟨.error e, a, true⟩
      | .ok (nyk, s) => ⟨.ok nyk, ⟨some nyk, s⟩, true⟩

/-- List (src/go.mod lines 291-312): require a session, then emit one record
per slot whose public key retrieval succeeds; an ensureYK failure is surfaced
wrapped as "could not reach YubiKey". -/
def AgentList (w : World) (cfg : List (Slot × PINPolicy)) (a : AgentState) :
    Except AgentError (List AgentKey) × AgentState :=
  match ensureYK w a with
  | ⟨.error e, a', _⟩ => (.error (.couldNotReach e), a')
  | ⟨.ok yk, a', _⟩ => (.ok (listLoop yk a'.serial cfg), a')

/-- Tag a pass-through result of an ssh.Signer call with the hardware error
constructor. -/
def mapHardware : Except String Bytes → Except AgentError Bytes
  | .ok b => .ok b
  | .error e => .error (.hardware e)

/-- The algorithm-resolution switch of SignWithFlags (src/go.mod lines
410-416): start from the requested key's type; for an RSA key substitute the
negotiated identifier when a hash flag is set, checking the 256-bit flag
first. -/
def resolveAlgorithm (keyType : String) (flags : Nat) : String :=
  if keyType = KeyAlgoRSA ∧ Nat.land flags SignatureFlagRsaSha256 ≠ 0 then SigAlgoRSASHA2256
  else if keyType = KeyAlgoRSA ∧ Nat.land flags SignatureFlagRsaSha512 ≠ 0 then SigAlgoRSASHA2512
  else keyType

/-- The observable outcome of the SignWithFlags signer loop: the call result,
how many hardware signing calls were made, the algorithm passed to the
hardware (if a call was made), and the matched signer's public key (if any). -/
structure LoopOutcome where
  result : Except AgentError Bytes
  hwSignCalls : Nat
  algUsed : Option String
  usedSigner : Option SSHPublicKey

/-- The signer loop of SignWithFlags (src/go.mod lines 392-420): skip signers
whose marshalled public key differs from the requested one byte for byte; on
the first match, resolve the algorithm and invoke the hardware signature; when
no signer matches, fail with the no-matching-key error. -/
def signLoop (key : SSHPublicKey) (data : Bytes) (flags : Nat) : List Signer → LoopOutcome
  | [] => ⟨.error .noMatchingKey, 0, none, none⟩
  | s :: rest =>
    if s.pub.blob = key.blob then
      ⟨mapHardware (s.signWithAlgorithm data (resolveAlgorithm key.type flags)), 1,
        some (resolveAlgorithm key.type flags), some s.pub⟩
    else signLoop key data flags rest

/-- The observable outcome of SignWithFlags. -/
structure SignOutcome where
  result : Except AgentError Bytes
  state : AgentState
  hwSignCalls : Nat
  algUsed : Option String
  usedSigner : Option SSHPublicKey

/-- SignWithFlags (src/go.mod lines 381-421): require a session, produce the
signers, then run the signer loop. -/
def SignWithFlags (w : World) (cfg : List (Slot × PINPolicy)) (a : AgentState)
    (key : SSHPublicKey) (data : Bytes) (flags : Nat) : SignOutcome :=
  match ensureYK w a with
  | ⟨.error e, a', _⟩ => ⟨.error (.couldNotReach e), a', 0, none, none⟩
  | ⟨.ok yk, a', _⟩ =>
    match signers yk cfg with
    | .error errs => ⟨.error (.noValidSigner errs), a', 0, none, none⟩
    | .ok sigs =>
      let r := signLoop key data flags sigs
      ⟨r.result, a', r.hwSignCalls, r.algUsed, r.usedSigner⟩

/-- Sign (src/go.mod lines 377-379): delegate to SignWithFlags with zero
flags. -/
def Sign (w : World) (cfg : List (Slot × PINPolicy)) (a : AgentState)
    (key : SSHPublicKey) (data : Bytes) : SignOutcome :=
  SignWithFlags w cfg a key data 0

/-- Close (src/main.go lines 201-211): if a session is held, close its handle
and drop it from the state, returning the close result; otherwise succeed
without touching anything.  The Bool records whether a handle was closed. -/
def AgentClose (a : AgentState) : Except AgentError Unit × AgentState × Bool :=
  match a.yk with
  | some yk =>
    (match yk.closeResult with
     | none => .ok ()
     | some e => .error (.hardware e),
     ⟨none, a.serial⟩, true)
  | none => (.ok (), a, false)

/-- Add (src/main.go lines 355-357): unconditionally rejected. -/
def AgentAdd (a : AgentState) (_key : Bytes) : Except AgentError Unit × AgentState :=
  (.error .operationUnsupported, a)

/-- Remove (src/main.go lines 358-360): unconditionally rejected. -/
def AgentRemove (a : AgentState) (_key : SSHPublicKey) : Except AgentError Unit × AgentState :=
  (.error .operationUnsupported, a)

/-- RemoveAll (src/main.go lines 361-363): implemented as Close. -/
def AgentRemoveAll (a : AgentState) : Except AgentError Unit × AgentState × Bool :=
  AgentClose a

/-- Lock (src/main.go lines 364-366): unconditionally rejected. -/
def AgentLock (a : AgentState) (_passphrase : Bytes) : Except AgentError Unit × AgentState :=
  (.error .operationUnsupported, a)

/-- Unlock (src/main.go lines 367-369): unconditionally rejected. -/
def AgentUnlock (a : AgentState) (_passphrase : Bytes) : Except AgentError Unit × AgentState :=
  (.error .operationUnsupported, a)

/-- Extension (src/main.go lines 349-351): every extension request, whatever
its type and contents, answers agent.ErrExtensionUnsupported. -/
def AgentExtension (a : AgentState) (_extensionType : String) (_contents : Bytes) :
    Except AgentError Bytes × AgentState :=
  (.error .extensionUnsupported, a)

/-!
Touch watchdog timer model.  time.Timer is modelled over discrete time: a
timer has an absolute expiry instant and an active flag; an active timer fires
exactly at its expiry.  Stop() deactivates the timer and reports true exactly
when the timer was still active and had not yet fired; Reset(d) re-arms it d
units from now.  SignWithFlags arms the touch notification with a 5 second
grace period (src/go.mod line 399); getPIN pauses and re-arms it around the
PIN prompt (src/go.mod lines 283-289).
-/

/-- The state of a time.Timer: its absolute expiry instant and whether it is
armed. -/
structure TimerState where
  expiry : Nat
  active : Bool
deriving DecidableEq, Repr

/-- Timer.Stop() called at instant now: deactivates and returns true iff the
timer is active and has not yet fired. -/
def TimerState.stop (t : TimerState) (now : Nat) : TimerState × Bool :=
  if t.active ∧ now < t.expiry then ({ t with active := false }, true) else (t, false)

/-- Timer.Reset(grace) called at instant now. -/
def TimerState.reset (_t : TimerState) (now grace : Nat) : TimerState :=
  { expiry := now + grace, active := true }

/-- An active timer fires exactly at its expiry instant. -/
def TimerState.firesAt (t : TimerState) (instant : Nat) : Prop :=
  t.active = true ∧ t.expiry = instant

/-- The 5 * time.Second grace period, in time units. -/
def gracePeriod : Nat := 5

/-- time.NewTimer(5 * time.Second) as armed by SignWithFlags (src/go.mod line
399). -/
def armTouchNotification (now : Nat) : TimerState :=
  { expiry := now + gracePeriod, active := true }

/-- The timer handling of Agent.getPIN (src/go.mod lines 283-289): at instant
now, with the PIN prompt taking dur time units, Stop the touch notification if
one is armed, and (via defer) Reset it with a fresh grace period once the
prompt returns.  The first component is the timer state in force while the
prompt is open; the second is the state after the deferred Reset runs at
instant now + dur. -/
def getPINTimer (tm : Option TimerState) (now dur : Nat) :
    Option TimerState × Option TimerState :=
  match tm with
  | none => (none, none)
  | some t =>
    let s := t.stop now
    (some s.1, if s.2 then some (s.1.reset (now + dur) gracePeriod) else some s.1)

/-!
macOS keychain-enabled PIN prompt (src/unnamed/part_001).
-/

/-- The answer of keyring.Get(service, user): the stored secret, not-found, or
another error. -/
inductive KeyringResult
  | found (secret : String)
  | notFound
  | errored (e : String)
deriving DecidableEq, Repr

/-- The parsed output of the osascript PIN dialog: the entered PIN and the
button label pressed. -/
structure PromptAnswer where
  pin : String
  button : String
deriving DecidableEq, Repr

/-- The environment of one macOS getPIN call: the keychain lookup answer, the
combined answer of running osascript and parsing its output, and the answer
of keyring.Set when the user asks to save. -/
structure MacEnv where
  keyring : KeyringResult
  promptResult : Except String PromptAnswer
  setResult : Option String
deriving Repr

/-- The interactive part of the macOS getPIN (src/unnamed/part_001 lines
48-74): run the osascript dialog, optionally store the PIN in the keychain,
and return the entered PIN.  The Bool records that the user was prompted. -/
def promptUser (env : MacEnv) : Except String String × Bool :=
  (match env.promptResult with
   | .error e => .error ("failed to execute osascript: " ++ e)
   | .ok ans =>
     if ans.button = "OK and save to keychain" then
       match env.setResult with
       | some e => .error e
       | none => .ok ans.pin
     else .ok ans.pin,
   true)

/-- The macOS keychain-enabled getPIN (src/unnamed/part_001 lines 33-75): with
3 or more retries remaining, consult the keychain first and return a stored
secret without prompting (propagating unexpected keychain errors); otherwise,
and when nothing is stored, prompt the user.  The Bool records whether the
user was prompted. -/
def macGetPIN (env : MacEnv) (_serial : Nat) (retries : Int) : Except String String × Bool :=
  if retries ≥ 3 then
    match env.keyring with
    | .errored e => (.error e, false)
    | .found secret => (.ok secret, false)
    | .notFound => promptUser env
  else promptUser env

/-!
Concrete fixtures, used by the witnesses.
-/

/-- A concrete RSA ssh public key blob. -/
def rsaKey : SSHPublicKey := ⟨typeField "ssh-rsa" ++ [1, 2, 3]⟩

/-- A concrete ECDSA P-256 ssh public key blob. -/
def ecdsaKey : SSHPublicKey := ⟨typeField "ecdsa-sha2-nistp256" ++ [4]⟩

/-- A certificate holding the concrete RSA key. -/
def certRSA : Cert := ⟨.rsa, .ok rsaKey⟩

/-- A signer for the concrete RSA key, answering a fixed signature. -/
def signerRSA : Signer := ⟨rsaKey, fun _ _ => .ok [9, 9]⟩

/-- A healthy YubiKey with the RSA key in the authentication slot. -/
def ykGood : YubiKey :=
  { attestationOk := true
    serialResult := .ok 77
    certificate := fun s => if s = SlotAuthentication then .ok certRSA else .error "missing"
    privateKey := fun _ _ => .ok 0
    signerFromKey := fun _ => .ok signerRSA
    retriesResult := .ok 3
    closeResult := none }

/-- The same YubiKey but failing the health probe. -/
def ykBad : YubiKey := { ykGood with attestationOk := false }

/-- A single attached card that opens as the healthy YubiKey. -/
def cardGood : Card := ⟨"Yubico YubiKey", .ok ykGood⟩

/-- A world with exactly one attached, working card. -/
def worldOne : World := ⟨.ok [cardGood]⟩

/-- An agent holding the healthy session. -/
def agentReady : AgentState := ⟨some ykGood, 77⟩

/-- An agent holding a stale (unhealthy) session, first-available selector. -/
def agentStale : AgentState := ⟨some ykBad, 0⟩

/-- A slot catalog configuring only the authentication slot, default PIN
policy. -/
def cfgAuth : List (Slot × PINPolicy) := [(SlotAuthentication, -1)]

example : rsaKey.type = "ssh-rsa" := by decide
example : ecdsaKey.type = "ecdsa-sha2-nistp256" := by decide
example : signers ykGood cfgAuth = .ok [signerRSA] := rfl
example : (SignWithFlags worldOne cfgAuth agentReady rsaKey [1] 6).algUsed
    = some "rsa-sha2-256" := by decide
example : (SignWithFlags worldOne cfgAuth agentReady ecdsaKey [1] 6).result
    = .error .noMatchingKey := rfl
example : (AgentList worldOne cfgAuth agentStale).1
    = .ok [⟨"ssh-rsa", rsaKey.blob, slotComment 77 SlotAuthentication⟩] := rfl
example : macGetPIN ⟨.found "1234", .ok ⟨"999", "OK"⟩, none⟩ 77 3 = (.ok "1234", false) := rfl

/-!
Helper lemmas, shared across the claim theorems below.
-/

/-- With a held, healthy session, ensureYK is a no-op returning that session. -/
theorem ensureYK_healthy (w : World) (a : AgentState) (yk : YubiKey)
    (hyk : a.yk = some yk) (hh : healthy yk = true) :
    ensureYK w a = ⟨.ok yk, a, false⟩ := by
  simp [ensureYK, hyk, hh]

/-- The signer loop on a list whose first blob-matching signer is s. -/
theorem signLoop_of_find_some (key : SSHPublicKey) (data : Bytes) (flags : Nat) :
    ∀ (l : List Signer) (s : Signer),
      l.find? (fun t => decide (t.pub.blob = key.blob)) = some s →
      signLoop key data flags l =
        ⟨mapHardware (s.signWithAlgorithm data (resolveAlgorithm key.type flags)), 1,
          some (resolveAlgorithm key.type flags), some s.pub⟩ := by
  intro l
  induction l with
  | nil => intro s h; simp [List.find?] at h
  | cons t rest ih =>
    intro s h
    by_cases hb : t.pub.blob = key.blob
    · rw [List.find?_cons_of_pos _ (by simpa using hb)] at h
      cases h
      simp [signLoop, hb]
    · rw [List.find?_cons_of_neg _ (by simpa using hb)] at h
      simp [signLoop, hb]
      exact ih s h

/-- The signer loop on a list with no blob-matching signer. -/
theorem signLoop_of_no_match (key : SSHPublicKey) (data : Bytes) (flags : Nat) :
    ∀ l : List Signer, (∀ s ∈ l, s.pub.blob ≠ key.blob) →
      signLoop key data flags l = ⟨.error .noMatchingKey, 0, none, none⟩ := by
  intro l
  induction l with
  | nil => intro _; simp [signLoop]
  | cons t rest ih =>
    intro h
    have ht : t.pub.blob ≠ key.blob := h t (by simp)
    simp [signLoop, ht]
    exact ih fun s hs => h s (by simp [hs])

/-- The matched signer recorded by the signer loop matched the requested blob,
and the recorded algorithm is the resolved one. -/
theorem signLoop_used_spec (key : SSHPublicKey) (data : Bytes) (flags : Nat) :
    ∀ (l : List Signer) (pub : SSHPublicKey),
      (signLoop key data flags l).usedSigner = some pub →
      pub.blob = key.blob ∧
        (signLoop key data flags l).algUsed = some (resolveAlgorithm key.type flags) := by
  intro l
  induction l with
  | nil => intro pub h; simp [signLoop] at h
  | cons t rest ih =>
    intro pub h
    by_cases hb : t.pub.blob = key.blob
    · simp [signLoop, hb] at h ⊢
      rw [← h]
      exact hb
    · simp only [signLoop, if_neg hb] at h ⊢
      exact ih pub h

/-- The signers() loop computes exactly the successful signers and the
per-slot errors of the catalog. -/
theorem signersAux_eq (yk : YubiKey) :
    ∀ cfg : List (Slot × PINPolicy),
      signersAux yk cfg = (okSigners yk cfg, slotErrors yk cfg) := by
  intro cfg
  induction cfg with
  | nil => simp [signersAux, okSigners, slotErrors]
  | cons p rest ih =>
    obtain ⟨slot, policy⟩ := p
    cases hb : buildSigner yk slot policy with
    | error e =>
      simp [signersAux, ih, hb, okSigners, slotErrors, List.filterMap_cons, Except.toOption]
    | ok s =>
      simp [signersAux, ih, hb, okSigners, slotErrors, List.filterMap_cons, Except.toOption]

/-- First-available discovery scans for the first card that opens and answers
a serial query. -/
theorem connectLoop_zero :
    ∀ cards : List Card, connectLoop 0 cards = firstAnswering cards := by
  intro cards
  induction cards with
  | nil => simp [connectLoop, firstAnswering]
  | cons c rest ih =>
    cases ho : c.openResult with
    | error e => simp [connectLoop, firstAnswering, List.findSome?_cons, ho] at ih ⊢; exact ih
    | ok yk =>
      cases hs : yk.serialResult with
      | error e => simp [connectLoop, firstAnswering, List.findSome?_cons, ho, hs] at ih ⊢; exact ih
      | ok serial => simp [connectLoop, firstAnswering, List.findSome?_cons, ho, hs]

/-- Any card the discovery scan selects is an attached card that opened
successfully and answered the serial query, and in serial-selector mode its
serial is the configured one. -/
theorem connectLoop_mem (sel : Nat) :
    ∀ (cards : List Card) (yk : YubiKey) (s : Nat),
      connectLoop sel cards = some (yk, s) →
      ∃ c ∈ cards, c.openResult = .ok yk ∧
        ((sel = 0 ∧ yk.serialResult = .ok s) ∨
         (sel ≠ 0 ∧ yk.serialResult = .ok sel ∧ s = sel)) := by
  intro cards
  induction cards with
  | nil => intro yk s h; simp [connectLoop] at h
  | cons c rest ih =>
    intro yk s h
    cases ho : c.openResult with
    | error e =>
      simp only [connectLoop, ho] at h
      obtain ⟨c', hc', hrest⟩ := ih yk s h
      exact ⟨c', by simp [hc'], hrest⟩
    | ok yk' =>
      cases hs : yk'.serialResult with
      | error e =>
        simp only [connectLoop, ho, hs] at h
        obtain ⟨c', hc', hrest⟩ := ih yk s h
        exact ⟨c', by simp [hc'], hrest⟩
      | ok serial =>
        simp only [connectLoop, ho, hs] at h
        by_cases hzero : sel = 0
        · rw [if_neg (by simp [hzero])] at h
          cases h
          exact ⟨c, by simp, ho, Or.inl ⟨hzero, hs⟩⟩
        · rw [if_pos hzero] at h
          by_cases hmatch : serial = sel
          · rw [if_pos hmatch] at h
            cases h
            exact ⟨c, by simp, ho, Or.inr ⟨hzero, by rw [← hmatch]; exact hs, rfl⟩⟩
          · rw [if_neg hmatch] at h
            obtain ⟨c', hc', hrest⟩ := ih yk s h
            exact ⟨c', by simp [hc'], hrest⟩

/-- The List loop keeps exactly the record of each slot whose public key
retrieval succeeds. -/
theorem listLoop_eq (yk : YubiKey) (serial : Nat) :
    ∀ cfg : List (Slot × PINPolicy),
      listLoop yk serial cfg = cfg.filterMap fun p => keyRecord yk serial p.1 := by
  intro cfg
  induction cfg with
  | nil => simp [listLoop]
  | cons p rest ih =>
    obtain ⟨slot, policy⟩ := p
    cases hp : getPublicKey yk slot with
    | error e => simp [listLoop, hp, keyRecord, List.filterMap_cons, ih]
    | ok pk => simp [listLoop, hp, keyRecord, List.filterMap_cons, ih]

/-!
Claim theorems.
-/

/-- C1: whenever SignWithFlags reaches a blob-matching signer, the algorithm
passed to the hardware signing call is the requested key's native type,
except that for an RSA key the 256-bit hash flag (checked first, so it wins
even when both flags are set) selects the RSA-SHA2-256 identifier and the
512-bit flag alone selects the RSA-SHA2-512 identifier; the matched key's
type equals the requested key's type, so the resolution is equally a function
of the matched key. -/
theorem sign_algorithm_resolution (w : World) (cfg : List (Slot × PINPolicy))
    (a : AgentState) (key : SSHPublicKey) (data : Bytes) (flags : Nat)
    (pub : SSHPublicKey) (alg : String)
    (hused : (SignWithFlags w cfg a key data flags).usedSigner = some pub)
    (halg : (SignWithFlags w cfg a key data flags).algUsed = some alg) :
    pub.type = key.type ∧
    alg = resolveAlgorithm key.type flags ∧
    (key.type = KeyAlgoRSA → Nat.land flags SignatureFlagRsaSha256 ≠ 0 →
      alg = SigAlgoRSASHA2256) ∧
    (key.type = KeyAlgoRSA → Nat.land flags SignatureFlagRsaSha256 = 0 →
      Nat.land flags SignatureFlagRsaSha512 ≠ 0 → alg = SigAlgoRSASHA2512) ∧
    (key.type ≠ KeyAlgoRSA → alg = key.type) ∧
    (Nat.land flags SignatureFlagRsaSha256 = 0 →
      Nat.land flags SignatureFlagRsaSha512 = 0 → alg = key.type) := by
  rcases he : ensureYK w a with ⟨res, a', closed⟩
  cases res with
  | error e => simp [SignWithFlags, he] at hused
  | ok yk =>
    cases hs : signers yk cfg with
    | error errs => simp [SignWithFlags, he, hs] at hused
    | ok sigs =>
      simp only [SignWithFlags, he, hs] at hused halg
      obtain ⟨hblob, halg'⟩ := signLoop_used_spec key data flags sigs pub hused
      rw [halg'] at halg
      have htype : pub.type = key.type := by
        unfold SSHPublicKey.type
        rw [hblob]
      have halgeq : alg = resolveAlgorithm key.type flags := by
        cases halg
        rfl
      refine ⟨htype, halgeq, ?_, ?_, ?_, ?_⟩
      · intro hrsa h256
        rw [halgeq, resolveAlgorithm, if_pos ⟨hrsa, h256⟩]
      · intro hrsa h256 h512
        rw [halgeq, resolveAlgorithm, if_neg (by simp [h256]), if_pos ⟨hrsa, h512⟩]
      · intro hnotrsa
        rw [halgeq, resolveAlgorithm, if_neg (by simp [hnotrsa]),
          if_neg (by simp [hnotrsa])]
      · intro h256 h512
        rw [halgeq, resolveAlgorithm, if_neg (by simp [h256]), if_neg (by simp [h512])]

/-- Witness for C1: an RSA key requested with both hash flags set (flags = 6)
resolves to the 256-bit identifier. -/
theorem sign_algorithm_resolution_witness :
    (SignWithFlags worldOne cfgAuth agentReady rsaKey [1] 6).usedSigner = some rsaKey ∧
    SigAlgoRSASHA2256 = resolveAlgorithm rsaKey.type 6 ∧
    Nat.land 6 SignatureFlagRsaSha512 ≠ 0 :=
  ⟨by decide,
   (sign_algorithm_resolution worldOne cfgAuth agentReady rsaKey [1] 6 rsaKey
      SigAlgoRSASHA2256 (by decide) (by decide)).2.1,
   by decide⟩

/-- C2: with a healthy session and a successfully produced signer list,
SignWithFlags signs with the first signer whose marshalled public key equals
the requested key's blob byte for byte; when no signer's blob matches, it
fails with the no-matching-key error and performs no hardware signing call. -/
theorem sign_key_matching (w : World) (cfg : List (Slot × PINPolicy))
    (a : AgentState) (key : SSHPublicKey) (data : Bytes) (flags : Nat)
    (yk : YubiKey) (sigs : List Signer)
    (hyk : a.yk = some yk) (hh : healthy yk = true)
    (hs : signers yk cfg = .ok sigs) :
    (∀ s : Signer, sigs.find? (fun t => decide (t.pub.blob = key.blob)) = some s →
       SignWithFlags w cfg a key data flags =
         ⟨mapHardware (s.signWithAlgorithm data (resolveAlgorithm key.type flags)), a, 1,
          some (resolveAlgorithm key.type flags), some s.pub⟩) ∧
    ((∀ s ∈ sigs, s.pub.blob ≠ key.blob) →
       SignWithFlags w cfg a key data flags =
         ⟨.error .noMatchingKey, a, 0, none, none⟩) := by
  have he := ensureYK_healthy w a yk hyk hh
  constructor
  · intro s hfind
    simp only [SignWithFlags, he, hs]
    rw [signLoop_of_find_some key data flags sigs s hfind]
  · intro hnone
    simp only [SignWithFlags, he, hs]
    rw [signLoop_of_no_match key data flags sigs hnone]

/-- Witness for C2: requesting a signature for the ECDSA key when only the
RSA signer is available fails with the no-matching-key error without any
hardware signing call. -/
theorem sign_key_matching_witness :
    agentReady.yk = some ykGood ∧ healthy ykGood = true ∧
    signers ykGood cfgAuth = .ok [signerRSA] ∧
    SignWithFlags worldOne cfgAuth agentReady ecdsaKey [1] 0 =
      ⟨.error .noMatchingKey, agentReady, 0, none, none⟩ :=
  ⟨rfl, rfl, rfl,
   (sign_key_matching worldOne cfgAuth agentReady ecdsaKey [1] 0 ykGood [signerRSA]
      rfl rfl rfl).2 (by decide)⟩

/-- C9: Sign is SignWithFlags with no algorithm flags set. -/
theorem sign_delegates_to_sign_with_flags (w : World) (cfg : List (Slot × PINPolicy))
    (a : AgentState) (key : SSHPublicKey) (data : Bytes) :
    Sign w cfg a key data = SignWithFlags w cfg a key data 0 := rfl

/-- C3: signers records an error for each configured slot whose signer
construction fails; the construction as a whole fails, carrying exactly the
per-slot causes, precisely when no configured slot produced a signer (so when
every configured slot failed), and otherwise returns exactly the signers of
the slots that succeeded. -/
theorem signers_aggregation (yk : YubiKey) (cfg : List (Slot × PINPolicy)) :
    signers yk cfg =
      (if (okSigners yk cfg).isEmpty then .error (slotErrors yk cfg)
       else .ok (okSigners yk cfg)) ∧
    ((okSigners yk cfg).isEmpty =
      cfg.all fun p => (buildSigner yk p.1 p.2).toOption.isNone) := by
  constructor
  · rw [signers, signersAux_eq]
    cases h : okSigners yk cfg with
    | nil => simp
    | cons s ss => simp
  · induction cfg with
    | nil => simp [okSigners]
    | cons p rest ih =>
      obtain ⟨slot, policy⟩ := p
      cases hb : buildSigner yk slot policy with
      | error e =>
        simp [okSigners, List.filterMap_cons, hb, Except.toOption] at ih ⊢
        exact ih
      | ok s =>
        simp [okSigners, List.filterMap_cons, hb, Except.toOption]

/-- C4: List fails exactly when ensureYK cannot produce a session, wrapping
the cause as a could-not-reach error; with a session it succeeds, emitting
one record per configured slot whose public key retrieval succeeded and
silently skipping the rest. -/
theorem list_best_effort (w : World) (cfg : List (Slot × PINPolicy)) (a : AgentState) :
    (∀ e, (ensureYK w a).result = .error e →
       AgentList w cfg a = (.error (.couldNotReach e), (ensureYK w a).state)) ∧
    (∀ yk, (ensureYK w a).result = .ok yk →
       AgentList w cfg a =
         (.ok (cfg.filterMap fun p => keyRecord yk (ensureYK w a).state.serial p.1),
          (ensureYK w a).state)) := by
  rcases he : ensureYK w a with ⟨res, a', closed⟩
  constructor
  · intro e hres
    simp only [he] at hres ⊢
    subst hres
    simp [AgentList, he]
  · intro yk hres
    simp only [he] at hres ⊢
    subst hres
    simp [AgentList, he, listLoop_eq]

/-- Witness for C4: with a healthy session, List returns the single record of
the configured authentication slot. -/
theorem list_best_effort_witness :
    (ensureYK worldOne agentReady).result = .ok ykGood ∧
    AgentList worldOne cfgAuth agentReady =
      (.ok (cfgAuth.filterMap fun p =>
        keyRecord ykGood (ensureYK worldOne agentReady).state.serial p.1),
       (ensureYK worldOne agentReady).state) :=
  ⟨rfl, (list_best_effort worldOne cfgAuth agentReady).2 ykGood rfl⟩

/-- C5: when no session is held or the held session fails the health probe,
ensureYK closes the stale handle exactly when one was held, and runs
discovery: a discovery failure is returned as-is with the agent state left
untouched (so no new session is installed), while a discovery success
installs exactly the freshly opened handle, which came from an attached card
that opened successfully and answered a serial query, matching the configured
serial in serial-selector mode; in first-available mode discovery selects the
first card that opens and answers a serial query. -/
theorem ensure_session_reconnect (w : World) (a : AgentState)
    (hstale : a.yk = none ∨ ∃ yk, a.yk = some yk ∧ healthy yk = false) :
    ((ensureYK w a).closedStale = a.yk.isSome) ∧
    (∀ e, connectToYK w a.serial = .error e →
       (ensureYK w a).result = .error e ∧ (ensureYK w a).state = a) ∧
    (∀ yk s, connectToYK w a.serial = .ok (yk, s) →
       (ensureYK w a).result = .ok yk ∧ (ensureYK w a).state = ⟨some yk, s⟩ ∧
       ∃ cards, w.cardsResult = .ok cards ∧
         ∃ c ∈ cards, c.openResult = .ok yk ∧
           ((a.serial = 0 ∧ yk.serialResult = .ok s) ∨
            (a.serial ≠ 0 ∧ yk.serialResult = .ok a.serial ∧ s = a.serial))) ∧
    (a.serial = 0 → ∀ cards, w.cardsResult = .ok cards → cards.isEmpty = false →
       connectToYK w a.serial =
         (match firstAnswering cards with
          | some p => .ok p
          | none => .error "could not find a yubikey card to use")) := by
  have hconn : ∀ yk s, connectToYK w a.serial = .ok (yk, s) →
      ∃ cards, w.cardsResult = .ok cards ∧
        ∃ c ∈ cards, c.openResult = .ok yk ∧
          ((a.serial = 0 ∧ yk.serialResult = .ok s) ∨
           (a.serial ≠ 0 ∧ yk.serialResult = .ok a.serial ∧ s = a.serial)) := by
    intro yk s h
    cases hc : w.cardsResult with
    | error e => simp [connectToYK, hc] at h
    | ok cards =>
      simp only [connectToYK, hc] at h
      by_cases hemp : cards.isEmpty
      · rw [if_pos hemp] at h; exact absurd h (by simp)
      · rw [if_neg hemp] at h
        cases hl : connectLoop a.serial cards with
        | none => rw [hl] at h; exact absurd h (by simp)
        | some p =>
          rw [hl] at h
          cases h
          exact ⟨cards, rfl, connectLoop_mem a.serial cards yk s hl⟩
  have hfirst : a.serial = 0 → ∀ cards, w.cardsResult = .ok cards → cards.isEmpty = false →
      connectToYK w a.serial =
        (match firstAnswering cards with
         | some p => .ok p
         | none => .error "could not find a yubikey card to use") := by
    intro hz cards hc hemp
    simp only [connectToYK, hc, hz]
    rw [if_neg (by simp [hemp]), connectLoop_zero]
  rcases hstale with hnone | ⟨yk0, hyk0, hbad⟩
  · refine ⟨by simp [ensureYK, hnone]; cases connectToYK w a.serial <;> simp, ?_, ?_, hfirst⟩
    · intro e hcerr
      simp [ensureYK, hnone, hcerr]
    · intro yk s hok
      refine ⟨by simp [ensureYK, hnone, hok], by simp [ensureYK, hnone, hok], hconn yk s hok⟩
  · have hb : healthy yk0 = false := hbad
    refine ⟨?_, ?_, ?_, hfirst⟩
    · simp [ensureYK, hyk0, hb]
      cases connectToYK w a.serial <;> simp
    · intro e hcerr
      simp [ensureYK, hyk0, hb, hcerr]
    · intro yk s hok
      refine ⟨by simp [ensureYK, hyk0, hb, hok], by simp [ensureYK, hyk0, hb, hok],
        hconn yk s hok⟩

/-- Witness for C5: with a stale unhealthy session and one attached working
card in first-available mode, ensureYK closes the stale handle and installs
the freshly opened one with its serial. -/
theorem ensure_session_reconnect_witness :
    agentStale.yk = some ykBad ∧ healthy ykBad = false ∧
    connectToYK worldOne agentStale.serial = .ok (ykGood, 77) ∧
    (ensureYK worldOne agentStale).result = .ok ykGood ∧
    (ensureYK worldOne agentStale).state = ⟨some ykGood, 77⟩ ∧
    (ensureYK worldOne agentStale).closedStale = true := by
  have h := ensure_session_reconnect worldOne agentStale (Or.inr ⟨ykBad, rfl, rfl⟩)
  have h3 := h.2.2.1 ykGood 77 rfl
  exact ⟨rfl, rfl, rfl, h3.1, h3.2.1, h.1⟩

/-- C6: the four mutating operations add, remove, lock and unlock are
rejected unconditionally with the operation-unsupported error, leaving the
agent state untouched, and every extension request is answered with the
dedicated extension-unsupported error, which is distinct from both the
operation-unsupported error and any generic error value. -/
theorem mutating_ops_rejected (a : AgentState) (key : Bytes) (pk : SSHPublicKey)
    (passL passU : Bytes) (extType : String) (contents : Bytes) :
    AgentAdd a key = (.error .operationUnsupported, a) ∧
    AgentRemove a pk = (.error .operationUnsupported, a) ∧
    AgentLock a passL = (.error .operationUnsupported, a) ∧
    AgentUnlock a passU = (.error .operationUnsupported, a) ∧
    AgentExtension a extType contents = (.error .extensionUnsupported, a) ∧
    AgentError.extensionUnsupported ≠ AgentError.operationUnsupported ∧
    ∀ e, AgentError.extensionUnsupported ≠ AgentError.hardware e :=
  ⟨rfl, rfl, rfl, rfl, rfl, by simp, by simp⟩

/-- Witness for C6: a concrete add request is rejected with the
operation-unsupported error and a concrete extension request with the
extension-unsupported one, the state untouched in both cases. -/
theorem mutating_ops_rejected_witness :
    AgentAdd agentReady [1] = (.error .operationUnsupported, agentReady) ∧
    AgentExtension agentReady "session-bind" [2] =
      (.error .extensionUnsupported, agentReady) :=
  ⟨(mutating_ops_rejected agentReady [1] rsaKey [] [] "session-bind" [2]).1,
   (mutating_ops_rejected agentReady [1] rsaKey [] [] "session-bind" [2]).2.2.2.2.1⟩

/-- C7: RemoveAll is exactly Close: it drops the held session (leaving the
agent with no session, so that Close on the resulting state is an idempotent
no-op and the next operation rediscovers hardware), succeeds whenever no
session was held or the handle closes cleanly, and never returns the
operation-unsupported rejection. -/
theorem remove_all_is_close (a : AgentState) :
    AgentRemoveAll a = AgentClose a ∧
    (AgentRemoveAll a).2.1.yk = none ∧
    (∀ err, (AgentRemoveAll a).1 = .error err → err ≠ .operationUnsupported) ∧
    (a.yk = none → AgentRemoveAll a = (.ok (), a, false)) ∧
    (∀ yk, a.yk = some yk → yk.closeResult = none → (AgentRemoveAll a).1 = .ok ()) ∧
    AgentClose (AgentRemoveAll a).2.1 = (.ok (), (AgentRemoveAll a).2.1, false) := by
  refine ⟨rfl, ?_, ?_, ?_, ?_, ?_⟩
  · cases hyk : a.yk with
    | none => simp [AgentRemoveAll, AgentClose, hyk]
    | some yk => simp [AgentRemoveAll, AgentClose, hyk]
  · intro err herr
    cases hyk : a.yk with
    | none => simp [AgentRemoveAll, AgentClose, hyk] at herr
    | some yk =>
      cases hcl : yk.closeResult with
      | none => simp [AgentRemoveAll, AgentClose, hyk, hcl] at herr
      | some e =>
        simp [AgentRemoveAll, AgentClose, hyk, hcl] at herr
        subst herr
        simp
  · intro hyk
    simp [AgentRemoveAll, AgentClose, hyk]
  · intro yk hyk hcl
    simp [AgentRemoveAll, AgentClose, hyk, hcl]
  · cases hyk : a.yk with
    | none => simp [AgentRemoveAll, AgentClose, hyk]
    | some yk => simp [AgentRemoveAll, AgentClose, hyk]

/-- Witness for C7: RemoveAll on an agent holding a cleanly closing session
succeeds and leaves no session behind. -/
theorem remove_all_is_close_witness :
    agentReady.yk = some ykGood ∧ ykGood.closeResult = none ∧
    (AgentRemoveAll agentReady).1 = .ok () ∧
    (AgentRemoveAll agentReady).2.1.yk = none :=
  ⟨rfl, rfl, (remove_all_is_close agentReady).2.2.2.2.1 ykGood rfl rfl,
   (remove_all_is_close agentReady).2.1⟩

/-- C8: when getPIN runs at an instant at which the touch-watchdog timer is
armed and has not yet fired, the Stop call succeeds, the timer state in force
for the whole interval the PIN prompt is open is inactive — so it cannot fire
at any instant of that interval — and the deferred Reset re-arms the timer
with a fresh grace period counted from the instant the prompt returns. -/
theorem pin_prompt_pauses_watchdog (t : TimerState) (now dur : Nat)
    (harmed : t.active = true) (hnotfired : now < t.expiry) :
    (t.stop now).2 = true ∧
    (getPINTimer (some t) now dur).1 = some { t with active := false } ∧
    (∀ td instant, (getPINTimer (some t) now dur).1 = some td →
       ¬ td.firesAt instant) ∧
    (getPINTimer (some t) now dur).2 =
      some { expiry := now + dur + gracePeriod, active := true } := by
  have hstop : t.stop now = ({ t with active := false }, true) := by
    simp [TimerState.stop, harmed, hnotfired]
  refine ⟨by rw [hstop], by simp [getPINTimer, hstop], ?_, ?_⟩
  · intro td instant htd
    simp [getPINTimer, hstop] at htd
    rw [← htd]
    intro hfires
    simp [TimerState.firesAt] at hfires
  · simp [getPINTimer, hstop, TimerState.reset]

/-- Witness for C8: a touch notification armed at instant 0 is paused by a
PIN prompt opening at instant 1 and lasting 10 units, and is re-armed to fire
at instant 16. -/
theorem pin_prompt_pauses_watchdog_witness :
    (armTouchNotification 0).active = true ∧ 1 < (armTouchNotification 0).expiry ∧
    ((armTouchNotification 0).stop 1).2 = true ∧
    (getPINTimer (some (armTouchNotification 0)) 1 10).2 =
      some { expiry := 16, active := true } := by
  have h := pin_prompt_pauses_watchdog (armTouchNotification 0) 1 10 (by decide) (by decide)
  exact ⟨by decide, by decide, h.1, h.2.2.2⟩

/-- C10: the macOS keychain-enabled getPIN consults the stored keychain
secret and returns it without prompting exactly in the case of at least three
remaining retries; with fewer retries remaining the user is always prompted
interactively, and in general the prompt is skipped only when at least three
retries remain. -/
theorem mac_pin_keychain_gating (env : MacEnv) (serial : Nat) (retries : Int) :
    (retries ≥ 3 → ∀ s, env.keyring = .found s →
       macGetPIN env serial retries = (.ok s, false)) ∧
    (retries < 3 → macGetPIN env serial retries = promptUser env ∧
       (macGetPIN env serial retries).2 = true) ∧
    ((macGetPIN env serial retries).2 = false → retries ≥ 3) := by
  by_cases hr : retries ≥ 3
  · refine ⟨?_, ?_, fun _ => hr⟩
    · intro _ s hs
      simp [macGetPIN, hr, hs]
    · intro hlt
      exact absurd hr (by omega)
  · have hlt : retries < 3 := by omega
    have hprompted : (promptUser env).2 = true := by simp [promptUser]
    refine ⟨fun h => absurd h hr, ?_, ?_⟩
    · intro _
      constructor
      · simp [macGetPIN, hr]
      · simp [macGetPIN, hr, hprompted]
    · intro hfalse
      rw [show macGetPIN env serial retries = promptUser env by simp [macGetPIN, hr]]
        at hfalse
      rw [hprompted] at hfalse
      exact absurd hfalse (by simp)

/-- Witness for C10: with three retries remaining the stored secret is
returned without prompting; with two remaining the user is prompted even
though a secret is stored. -/
theorem mac_pin_keychain_gating_witness :
    (3 : Int) ≥ 3 ∧
    macGetPIN ⟨.found "1234", .ok ⟨"999", "OK"⟩, none⟩ 77 3 = (.ok "1234", false) ∧
    (2 : Int) < 3 ∧
    (macGetPIN ⟨.found "1234", .ok ⟨"999", "OK"⟩, none⟩ 77 2).2 = true :=
  ⟨by decide,
   (mac_pin_keychain_gating ⟨.found "1234", .ok ⟨"999", "OK"⟩, none⟩ 77 3).1
     (by decide) "1234" rfl,
   by decide,
   ((mac_pin_keychain_gating ⟨.found "1234", .ok ⟨"999", "OK"⟩, none⟩ 77 2).2.1
     (by decide)).2⟩

end YubikeyAgent
